import Mathlib

/-!
Verification of the polling / buffering / state-merge engine of the
EthandBtc dashboard (src/src/App.tsx) against its natural-language
specification.

The embedding below follows the runtime semantics of the TypeScript
source. TypeScript type annotations are erased at runtime, so the
object returned by `res.json()` may lack any of the declared fields;
fields of the `data` object are therefore modelled as `Option Int`.
Accessing a property of an absent `data` object throws a TypeError,
which lands in the surrounding `catch`; accessing an absent property
of a present object yields `undefined` (modelled as `none`) without
throwing. Times (`new Date().toLocaleTimeString()`) are modelled by an
abstract numeric instant.
-/

namespace EthBtc

/-- Runtime shape of one instrument's `json.data` object (the source's
`AssetData` annotation, lines 13-21, is not enforced at runtime, so every
field may be absent). -/
structure AssetData where
  totalNetInflow : Option Int
  bigVolumeNetInflow : Option Int
  buyMakerBigVolume : Option Int
  buyTakerBigVolume : Option Int
  mediumVolumeNetInflow : Option Int
  smallVolumeNetInflow : Option Int
  updateTimestamp : Option Int
deriving DecidableEq

/-- Runtime shape of a parsed response body: the top-level `data` member
may itself be absent (in which case `json.data.totalNetInflow` throws). -/
structure Payload where
  data : Option AssetData
deriving DecidableEq

/-- One entry of a history ref (source lines 23-26): the capture time and
the `totalNetInflow` read off the payload, which may be `undefined`. -/
structure HistoryItem where
  time : Nat
  value : Option Int
deriving DecidableEq

/-- Lines 152-155 (and identically 156-159): the history update
`[...h.slice(-19), x]` — keep the last 19 entries, then append the new
point at the end. -/
def historyAppend (h : List HistoryItem) (x : HistoryItem) : List HistoryItem :=
  h.drop (h.length - 19) ++ [x]

/-- Modelled from the spec: the `historyCapacity` configuration option
(default 20) is absent from the source, which hard-codes capacity 20 via
`slice(-19)`. This is the source's eviction step with the capacity as a
parameter; `historyAppend = slidingAppend 20` definitionally. -/
def slidingAppend (cap : Nat) (h : List HistoryItem) (x : HistoryItem) : List HistoryItem :=
  h.drop (h.length - (cap - 1)) ++ [x]

/-- Iterated successful polls of one instrument's history buffer,
folding the source's append step over the arriving points. -/
def runPolls (h : List HistoryItem) (items : List HistoryItem) : List HistoryItem :=
  items.foldl historyAppend h

/-- The component state and refs of `App` (lines 133-137): the two
published latest samples and the two history refs. -/
structure AppState where
  ethData : Option AssetData
  btcData : Option AssetData
  ethHistory : List HistoryItem
  btcHistory : List HistoryItem
deriving DecidableEq

/-- One cycle of `fetchData` (lines 140-166). Inputs are the settled
outcome of each instrument's fetch-and-parse (`Except.error` for a
rejected fetch or a `json()` throw, which `Promise.all` / `await`
propagate to the catch) and the capture instant `now`. Execution order
of the `try` block: if either result is an error, the catch runs with no
state mutated; otherwise the ETH history update (152-155) evaluates
`ethJson.data.totalNetInflow` — a TypeError if `data` is absent, caught
with nothing mutated; then the BTC history update (156-159) evaluates
`btcJson.data.totalNetInflow` — a TypeError if BTC's `data` is absent,
caught after ETH's history was already reassigned; then both setters
(161-162) publish the raw `data` objects. -/
def fetchData (s : AppState) (ethRes btcRes : Except Unit Payload) (now : Nat) : AppState :=
  match ethRes, btcRes with
  | .ok ethJson, .ok btcJson =>
    match ethJson.data, btcJson.data with
    | none, _ => s
    | some ed, none =>
      { s with ethHistory := historyAppend s.ethHistory ⟨now, ed.totalNetInflow⟩ }
    | some ed, some bd =>
      { ethData := some ed
        btcData := some bd
        ethHistory := historyAppend s.ethHistory ⟨now, ed.totalNetInflow⟩
        btcHistory := historyAppend s.btcHistory ⟨now, bd.totalNetInflow⟩ }
  | _, _ => s

/-- Whether a published sample carries all six numeric fields and the
timestamp (the spec's well-formedness check, which the source never
performs). -/
def hasAllFields (d : AssetData) : Bool :=
  d.totalNetInflow.isSome && d.bigVolumeNetInflow.isSome && d.buyMakerBigVolume.isSome &&
  d.buyTakerBigVolume.isSome && d.mediumVolumeNetInflow.isSome &&
  d.smallVolumeNetInflow.isSome && d.updateTimestamp.isSome

/-- A fully-populated sample with the given `totalNetInflow` and
timestamp, zero in the remaining numeric fields. -/
def sampleOf (v : Int) (t : Int) : AssetData :=
  { totalNetInflow := some v, bigVolumeNetInflow := some 0, buyMakerBigVolume := some 0,
    buyTakerBigVolume := some 0, mediumVolumeNetInflow := some 0,
    smallVolumeNetInflow := some 0, updateTimestamp := some t }

/-- Per-instrument view of one successful poll (the per-instrument half
of `fetchData`'s full-success branch), with the history capacity as a
parameter (Modelled from the spec: `historyCapacity`; the source
hard-codes 20). -/
structure InstrumentState where
  latestSample : Option AssetData
  history : List HistoryItem
deriving DecidableEq

/-- Apply one successful poll to one instrument: replace the latest
sample with the payload's `data` and append one history point carrying
its `totalNetInflow`. -/
def instPoll (cap : Nat) (st : InstrumentState) (d : AssetData) (now : Nat) : InstrumentState :=
  { latestSample := some d, history := slidingAppend cap st.history ⟨now, d.totalNetInflow⟩ }

/-- Iterate successful polls over one instrument, each pair giving the
payload's `data` and the capture instant. -/
def runInstPolls (cap : Nat) (st : InstrumentState) (ps : List (AssetData × Nat)) :
    InstrumentState :=
  ps.foldl (fun acc p => instPoll cap acc p.1 p.2) st

/-- The poll period passed to `setInterval` at line 169. -/
def pollIntervalMs : Nat := 3000

/-- Start instants of the poll cycles launched by the effect at lines
168-169: the immediate `fetchData()` call fires at instant 0, and
`setInterval` fires its n-th tick a further (n+1)·period later. Per
`setInterval` semantics the schedule is fixed-rate — it does not depend
on when any cycle's fetches settle, so the `settle` argument (mapping a
cycle to its fetch-settlement instant) is never consulted. -/
def cycleStart (_settle : Nat → Nat) : Nat → Nat
  | 0 => 0
  | n + 1 => (n + 1) * pollIntervalMs

/-- Whether cycle `n` is ever launched when the cleanup at line 170 runs
`clearInterval` at instant `stop`: per `clearInterval` semantics, only
ticks that fired strictly before the cancellation were issued. -/
def cycleIssued (settle : Nat → Nat) (stop : Nat) (n : Nat) : Bool :=
  decide (cycleStart settle n < stop)

/-- A heap of JS arrays of history items, addressed by index; models the
aliasing behaviour of the history refs shared with consumers. -/
structure Store where
  cells : List (List HistoryItem)
deriving DecidableEq

/-- Dereference an array address (absent addresses read as empty). -/
def Store.read (st : Store) (r : Nat) : List HistoryItem := st.cells.getD r []

/-- Allocate a fresh array holding `v`; returns the grown heap and the
new address. -/
def Store.alloc (st : Store) (v : List HistoryItem) : Store × Nat :=
  (⟨st.cells ++ [v]⟩, st.cells.length)

/-- The history update at lines 152-155 as a heap operation: the array
literal `[...cur.slice(-19), x]` allocates a fresh array from a copy of
the old one, and the ref is repointed to the new address; no existing
array is written. -/
def historyAppendRef (st : Store) (r : Nat) (x : HistoryItem) : Store × Nat :=
  st.alloc (historyAppend (st.read r) x)

/-- A state with no data yet and empty histories (the initial component
state, lines 133-137). -/
def s1 : AppState := { ethData := none, btcData := none, ethHistory := [], btcHistory := [] }

/-- A state after one fully successful cycle, used as the pre-cycle state
of counterexamples. -/
def s2 : AppState :=
  { ethData := some (sampleOf 1 50), btcData := some (sampleOf 2 50),
    ethHistory := [⟨1, some 1⟩], btcHistory := [⟨1, some 2⟩] }

/-- A parsed payload whose `data` object is present but lacks
`updateTimestamp`. -/
def dMissingTs : AssetData :=
  { totalNetInflow := some 7, bigVolumeNetInflow := some 1, buyMakerBigVolume := some 1,
    buyTakerBigVolume := some 1, mediumVolumeNetInflow := some 1,
    smallVolumeNetInflow := some 1, updateTimestamp := none }

theorem historyAppend_eq_sliding (h : List HistoryItem) (x : HistoryItem) :
    historyAppend h x = slidingAppend 20 h x := rfl

theorem runPolls_nil_eq (items : List HistoryItem) :
    runPolls [] items = items.drop (items.length - 20) := by
  induction items using List.reverseRecOn with
  | nil => rfl
  | append_singleton l x ih =>
    have h1 : runPolls [] (l ++ [x]) = historyAppend (runPolls [] l) x := by
      simp [runPolls, List.foldl_append]
    rw [h1, ih]
    unfold historyAppend
    rw [List.drop_drop, List.length_drop, List.length_append, List.length_singleton]
    rw [List.drop_append_of_le_length (by omega)]
    have hidx : ∀ a b : Nat, a = b → l.drop a ++ [x] = l.drop b ++ [x] := by
      intro a b hab
      rw [hab]
    apply hidx
    omega

/-- C1 counterexample: in a cycle where ETH's fetch fails and BTC's
succeeds with a fully-populated payload, `Promise.all` rejects, the
single catch runs, and the published state does NOT reflect BTC's new
sample or history point — refuting per-instrument failure isolation. -/
theorem failure_isolation_counterexample :
    fetchData s2 (.error ()) (.ok ⟨some (sampleOf 9 60)⟩) 7 = s2 ∧
    (fetchData s2 (.error ()) (.ok ⟨some (sampleOf 9 60)⟩) 7).btcData ≠ some (sampleOf 9 60) ∧
    (fetchData s2 (.error ()) (.ok ⟨some (sampleOf 9 60)⟩) 7).btcHistory = s2.btcHistory := by
  refine ⟨rfl, ?_, rfl⟩
  decide

/-- C1 (amended): if either instrument's fetch (or body parse) fails, the
whole cycle is abandoned: both instruments' latest samples and histories
are exactly as they were before the cycle — the failed instrument is
indeed untouched, but so is the successful one. -/
theorem failure_aborts_cycle (s : AppState) (r : Except Unit Payload) (now : Nat) :
    fetchData s (.error ()) r now = s ∧ fetchData s r (.error ()) now = s := by
  rcases r with e | p
  · exact ⟨rfl, rfl⟩
  · exact ⟨rfl, rfl⟩

/-- C2: bounded history — after any sequence of successful polls starting
from an empty buffer, the history length is min(20, number of polls) and
the buffer holds exactly the most recent min(20, total) points in arrival
order (the drop of all but the last 20), the oldest evicted first. -/
theorem bounded_history (items : List HistoryItem) :
    (runPolls [] items).length = min 20 items.length ∧
    runPolls [] items = items.drop (items.length - 20) := by
  refine ⟨?_, runPolls_nil_eq items⟩
  rw [runPolls_nil_eq, List.length_drop]
  omega

/-- C3 counterexample: a BTC payload whose `data` object is present but
lacks `updateTimestamp` is NOT treated like a network failure: BTC's
latest sample is replaced with the partial object, it is published while
failing the six-fields-plus-timestamp check, and BTC's history changes
within the cycle. -/
theorem malformed_payload_counterexample :
    (fetchData s2 (.ok ⟨some (sampleOf 9 60)⟩) (.ok ⟨some dMissingTs⟩) 7).btcData
        = some dMissingTs ∧
    hasAllFields dMissingTs = false ∧
    (fetchData s2 (.ok ⟨some (sampleOf 9 60)⟩) (.ok ⟨some dMissingTs⟩) 7).btcHistory
        ≠ s2.btcHistory := by
  refine ⟨rfl, rfl, ?_⟩
  decide

/-- C3 (amended): only a payload lacking the top-level `data` object is
treated like a network failure. When ETH's payload lacks `data` the whole
cycle aborts with the state unchanged; when BTC's payload lacks `data`,
BTC's latest sample and history and ETH's latest sample are unchanged
(though ETH's history may already have been appended). A payload whose
`data` object is present is accepted as-is, even with missing fields. -/
theorem missing_data_object_aborts (s : AppState) (q : Except Unit Payload) (now : Nat) :
    fetchData s (.ok ⟨none⟩) q now = s ∧
    (fetchData s q (.ok ⟨none⟩) now).btcData = s.btcData ∧
    (fetchData s q (.ok ⟨none⟩) now).btcHistory = s.btcHistory ∧
    (fetchData s q (.ok ⟨none⟩) now).ethData = s.ethData := by
  rcases q with e | ⟨_ | d⟩
  · exact ⟨rfl, rfl, rfl, rfl⟩
  · exact ⟨rfl, rfl, rfl, rfl⟩
  · exact ⟨rfl, rfl, rfl, rfl⟩

/-- C4 counterexample: when ETH's payload is well-formed but BTC's lacks
its `data` object, the TypeError at BTC's field access lands after ETH's
history was reassigned and before `setEthData` runs: ETH's history gains
this cycle's point while ETH's latest sample is not replaced — the
append and the replacement are not an uninterruptible unit. -/
theorem atomic_merge_counterexample :
    (fetchData s2 (.ok ⟨some (sampleOf 9 60)⟩) (.ok ⟨none⟩) 7).ethHistory ≠ s2.ethHistory ∧
    (fetchData s2 (.ok ⟨some (sampleOf 9 60)⟩) (.ok ⟨none⟩) 7).ethData = s2.ethData := by
  refine ⟨?_, rfl⟩
  decide

/-- C4 (amended): on every cycle in which both payloads carry a `data`
object, each instrument's latest-sample replacement and its single
history append (value = the payload's totalNetInflow, observedAt = the
capture instant) happen together in the one synchronous block; the sole
exception is a cycle whose BTC payload lacks `data`, which appends to
ETH's history without replacing ETH's latest sample. -/
theorem full_success_merge (s : AppState) (ed bd : AssetData) (now : Nat) :
    fetchData s (.ok ⟨some ed⟩) (.ok ⟨some bd⟩) now =
      { ethData := some ed, btcData := some bd,
        ethHistory := historyAppend s.ethHistory ⟨now, ed.totalNetInflow⟩,
        btcHistory := historyAppend s.btcHistory ⟨now, bd.totalNetInflow⟩ } := rfl

/-- C5: with history capacity 3, four successful polls delivering
totalNetInflow values 10, -5, 20, 30 leave the history value sequence
[-5, 20, 30] and the latest sample's totalNetInflow equal to 30. -/
theorem scenario_capacity_three :
    (runInstPolls 3 ⟨none, []⟩
        [(sampleOf 10 1, 1), (sampleOf (-5) 2, 2), (sampleOf 20 3, 3),
          (sampleOf 30 4, 4)]).history.map (fun p => p.value)
        = [some (-5), some 20, some 30] ∧
    (runInstPolls 3 ⟨none, []⟩
        [(sampleOf 10 1, 1), (sampleOf (-5) 2, 2), (sampleOf 20 3, 3),
          (sampleOf 30 4, 4)]).latestSample = some (sampleOf 30 4) := by
  constructor <;> rfl

/-- C6: the poll timer fires on a fixed 3000 ms period, and the tick
schedule is independent of when any cycle's fetches settle (the schedule
is the same for any two settle-time assignments). -/
theorem fixed_rate_polling (f g : Nat → Nat) (n : Nat) :
    pollIntervalMs = 3000 ∧
    cycleStart f n = cycleStart g n ∧
    cycleStart f (n + 1) = cycleStart f n + pollIntervalMs := by
  refine ⟨rfl, ?_, ?_⟩
  · cases n <;> rfl
  · cases n with
    | zero => rfl
    | succ m =>
      simp [cycleStart, pollIntervalMs]
      ring

/-- C7: once the cleanup's `clearInterval` runs at instant `stop`, no
cycle whose tick would fire at or after `stop` is ever issued. -/
theorem stop_cancels_timer (f : Nat → Nat) (stop n : Nat)
    (h : stop ≤ cycleStart f n) :
    cycleIssued f stop n = false := by
  simp only [cycleIssued, decide_eq_false_iff_not, not_lt]
  exact h

/-- C7 witness: at stop instant 3000, tick 1 (firing at 3000) is not
issued. -/
theorem stop_cancels_timer_witness :
    3000 ≤ cycleStart (fun _ => 0) 1 ∧ cycleIssued (fun _ => 0) 3000 1 = false :=
  ⟨by decide, stop_cancels_timer (fun _ => 0) 3000 1 (by decide)⟩

/-- C8: the history update never mutates an array a consumer may hold:
every array existing in the heap before the append reads back unchanged
afterwards, and the freshly allocated array holds exactly the appended
sequence. -/
theorem history_mutation_safe (st : Store) (r : Nat) (x : HistoryItem) (a : Nat)
    (h : a < st.cells.length) :
    (historyAppendRef st r x).1.read a = st.read a ∧
    (historyAppendRef st r x).1.read (historyAppendRef st r x).2
        = historyAppend (st.read r) x := by
  constructor
  · simp only [historyAppendRef, Store.alloc, Store.read]
    exact List.getD_append _ _ _ _ h
  · simp only [historyAppendRef, Store.alloc, Store.read]
    rw [List.getD_append_right]
    · simp
    · exact le_refl _

/-- C8 witness: a one-array heap; the existing array is unchanged by the
append and the new array is the appended copy. -/
theorem history_mutation_safe_witness :
    0 < (Store.mk [[⟨1, some 5⟩]]).cells.length ∧
    ((historyAppendRef (Store.mk [[⟨1, some 5⟩]]) 0 ⟨2, some 6⟩).1.read 0
        = (Store.mk [[⟨1, some 5⟩]]).read 0 ∧
      (historyAppendRef (Store.mk [[⟨1, some 5⟩]]) 0 ⟨2, some 6⟩).1.read
          (historyAppendRef (Store.mk [[⟨1, some 5⟩]]) 0 ⟨2, some 6⟩).2
        = historyAppend ((Store.mk [[⟨1, some 5⟩]]).read 0) ⟨2, some 6⟩) :=
  ⟨by decide, history_mutation_safe (Store.mk [[⟨1, some 5⟩]]) 0 ⟨2, some 6⟩ 0 (by decide)⟩

/-- C9: the two latest samples are assigned together or not at all: every
cycle either leaves both `ethData` and `btcData` exactly as they were, or
sets both from this cycle's two payloads in the same synchronous block. -/
theorem coupled_latest_updates (s : AppState) (er br : Except Unit Payload) (now : Nat) :
    ((fetchData s er br now).ethData = s.ethData ∧
      (fetchData s er br now).btcData = s.btcData) ∨
    (∃ ed bd, er = .ok ⟨some ed⟩ ∧ br = .ok ⟨some bd⟩ ∧
      (fetchData s er br now).ethData = some ed ∧
      (fetchData s er br now).btcData = some bd) := by
  rcases er with e | ⟨pd⟩
  · exact Or.inl ⟨rfl, rfl⟩
  · rcases br with e | ⟨qd⟩
    · exact Or.inl ⟨rfl, rfl⟩
    · rcases pd with _ | ed
      · exact Or.inl ⟨rfl, rfl⟩
      · rcases qd with _ | bd
        · exact Or.inl ⟨rfl, rfl⟩
        · exact Or.inr ⟨ed, bd, rfl, rfl, rfl, rfl⟩

/-- C10: the first cycle is issued immediately at instant 0, strictly
before the first poll interval elapses, and every later cycle starts
exactly one poll period after its predecessor. -/
theorem immediate_first_cycle (f : Nat → Nat) :
    cycleStart f 0 = 0 ∧ cycleStart f 0 < pollIntervalMs ∧
    (∀ n, cycleStart f (n + 1) = cycleStart f n + pollIntervalMs) := by
  refine ⟨rfl, by simp [cycleStart, pollIntervalMs], ?_⟩
  intro n
  cases n with
  | zero => rfl
  | succ m =>
    simp [cycleStart, pollIntervalMs]
    ring

end EthBtc
